import Mathlib

/-!
Verification development for the AI resume matcher core: the structured
resume parser (`cv_structured_parser.py`) and the section-weighted semantic
scorer (`semantic_matcher.py`).  The Python code is shallowly embedded as
executable Lean definitions: strings are `List Char`/`String`, Python
`datetime` values are a calendar structure with a rational time-of-day,
Python floats are modelled by `ℚ`, and fallible operations return
`Option`/`Except`.  The sentence-embedding model used by the scorer is an
external, injected capability (per the design's interface boundary), so the
scorer is parametrised by the per-section similarity assignment it would
compute from the embeddings.
-/

namespace CvMatcher

/-- Python whitespace characters (`str.strip`, `str.split`, regex `\s`),
ASCII range. -/
def isPySpace (c : Char) : Bool :=
  c == ' ' || c == '\t' || c == '\n' || c == '\r' || c == '\x0b' || c == '\x0c'

/-- Python `str.strip()`: drop whitespace from both ends. -/
def pyStrip (l : List Char) : List Char :=
  ((l.dropWhile isPySpace).reverse.dropWhile isPySpace).reverse

/-- Python `str.strip(chars)`: drop the given characters from both ends. -/
def pyStripChars (cs : List Char) (l : List Char) : List Char :=
  ((l.dropWhile (cs.contains ·)).reverse.dropWhile (cs.contains ·)).reverse

/-- Lowercase a character list (Python `str.lower()`, ASCII range). -/
def lcL (l : List Char) : List Char := l.map Char.toLower

/-- First index at which `pat` occurs as a contiguous sublist of the
argument (Python `re.search` with a literal pattern). -/
def findSub? (pat : List Char) : List Char → Option Nat
  | [] => if pat = [] then some 0 else none
  | c :: t => if pat.isPrefixOf (c :: t) then some 0 else (findSub? pat t).map (· + 1)

/-- Python `str.split()` (no argument): maximal non-whitespace runs. -/
def splitWsAux : List Char → List Char → List (List Char)
  | [], cur => if cur = [] then [] else [cur.reverse]
  | c :: t, cur =>
      if isPySpace c then
        if cur = [] then splitWsAux t [] else cur.reverse :: splitWsAux t []
      else splitWsAux t (c :: cur)

def splitWs (l : List Char) : List (List Char) := splitWsAux l []

/-- Python `str.capitalize()`: first character uppercased, rest lowercased. -/
def pyCapitalize (s : String) : String :=
  match s.data with
  | [] => ""
  | c :: t => String.mk (c.toUpper :: t.map Char.toLower)

/-! ## Dates (`datetime` model)

A `DT` is a Python `datetime`: a proleptic-Gregorian calendar date plus a
rational time-of-day in seconds.  Values built by `strptime` have
`tod = 0`; the ambient `datetime.now()` is threaded as a parameter. -/

structure DT where
  year : ℕ
  month : ℕ
  day : ℕ
  tod : ℚ
deriving DecidableEq, Repr

def isLeap (y : ℕ) : Bool := (y % 4 == 0 && y % 100 != 0) || y % 400 == 0

def daysInMonth (y m : ℕ) : ℕ :=
  if m = 2 then (if isLeap y then 29 else 28)
  else if m = 4 ∨ m = 6 ∨ m = 9 ∨ m = 11 then 30
  else 31

/-- Days contributed by the full months strictly before month `m`. -/
def daysBeforeMonth (y m : ℕ) : ℕ :=
  (List.range (m - 1)).foldl (fun a i => a + daysInMonth y (i + 1)) 0

/-- Absolute (proleptic Gregorian) day number of a date, day 0 being
0001-01-01. -/
def toAbsDays (t : DT) : ℤ :=
  let y : ℤ := (t.year : ℤ) - 1
  365 * y + y / 4 - y / 100 + y / 400
    + (daysBeforeMonth t.year t.month : ℤ) + (t.day : ℤ) - 1

/-- Timestamp of a `datetime` in seconds (`datetime` subtraction is exact
on this value; `timedelta.days` is the floor of the difference over
86400). -/
def tsecs (t : DT) : ℚ := 86400 * (toAbsDays t : ℚ) + t.tod

/-! ## `strptime` for the formats in `date_formats`

CPython `_strptime` compiles each directive to a regex fragment:
`%Y` is exactly four digits, `%m` is `1[0-2]|0[1-9]|[1-9]`, `%d` is
`3[01]|[12]\d|0[1-9]|[1-9]`, `%b`/`%B` are the (case-insensitive) month
names, and literal whitespace in the format matches a whitespace run.  The
whole string must be consumed, and the resulting numbers must form a valid
`datetime` (month length, year at least 1).  Alternation is modelled by
returning the candidate parses in the regex's preference order. -/

def digitVal (c : Char) : ℕ := c.toNat - 48

/-- Exactly `k` digits, most significant first. -/
def readDigits : ℕ → ℕ → List Char → Option (ℕ × List Char)
  | 0, acc, l => some (acc, l)
  | k + 1, acc, c :: t => if c.isDigit then readDigits k (acc * 10 + digitVal c) t else none
  | _ + 1, _, [] => none

/-- The `%m` regex `1[0-2]|0[1-9]|[1-9]`, candidates in preference order. -/
def pMonth (l : List Char) : List (ℕ × List Char) :=
  (match l with
   | '1' :: c :: t => if '0' ≤ c ∧ c ≤ '2' then [(10 + digitVal c, t)] else []
   | _ => []) ++
  (match l with
   | '0' :: c :: t => if '1' ≤ c ∧ c ≤ '9' then [(digitVal c, t)] else []
   | _ => []) ++
  (match l with
   | c :: t => if '1' ≤ c ∧ c ≤ '9' then [(digitVal c, t)] else []
   | [] => [])

/-- The `%d` regex `3[01]|[12]\d|0[1-9]|[1-9]`, candidates in preference
order. -/
def pDay (l : List Char) : List (ℕ × List Char) :=
  (match l with
   | '3' :: c :: t => if c = '0' ∨ c = '1' then [(30 + digitVal c, t)] else []
   | _ => []) ++
  (match l with
   | c1 :: c2 :: t =>
      if (c1 = '1' ∨ c1 = '2') ∧ c2.isDigit then [(10 * digitVal c1 + digitVal c2, t)] else []
   | _ => []) ++
  (match l with
   | '0' :: c :: t => if '1' ≤ c ∧ c ≤ '9' then [(digitVal c, t)] else []
   | _ => []) ++
  (match l with
   | c :: t => if '1' ≤ c ∧ c ≤ '9' then [(digitVal c, t)] else []
   | [] => [])

def monthAbbrevNames : List (List Char × ℕ) :=
  [("jan".data, 1), ("feb".data, 2), ("mar".data, 3), ("apr".data, 4),
   ("may".data, 5), ("jun".data, 6), ("jul".data, 7), ("aug".data, 8),
   ("sep".data, 9), ("oct".data, 10), ("nov".data, 11), ("dec".data, 12)]

def monthFullNames : List (List Char × ℕ) :=
  [("january".data, 1), ("february".data, 2), ("march".data, 3),
   ("april".data, 4), ("may".data, 5), ("june".data, 6), ("july".data, 7),
   ("august".data, 8), ("september".data, 9), ("october".data, 10),
   ("november".data, 11), ("december".data, 12)]

/-- Case-insensitive month-name match at the head of the input. -/
def pMonthName (names : List (List Char × ℕ)) (l : List Char) : Option (ℕ × List Char) :=
  names.findSome? fun nm =>
    if nm.1.isPrefixOf (lcL l) then some (nm.2, l.drop nm.1.length) else none

/-- `datetime(year, month, day)` construction with validity checks. -/
def mkDate (y m d : ℕ) : Option DT :=
  if 1 ≤ y ∧ y ≤ 9999 ∧ 1 ≤ m ∧ m ≤ 12 ∧ 1 ≤ d ∧ d ≤ daysInMonth y m then
    some ⟨y, m, d, 0⟩
  else none

/-- `%Y sep %m sep %d`, whole string. -/
def runYMD (sep : Char) (l : List Char) : Option DT :=
  match readDigits 4 0 l with
  | none => none
  | some (y, r1) =>
    match r1 with
    | c :: r2 =>
      if c = sep then
        (pMonth r2).findSome? fun mr =>
          match mr.2 with
          | c2 :: r3 =>
            if c2 = sep then
              (pDay r3).findSome? fun dr =>
                if dr.2 = [] then mkDate y mr.1 dr.1 else none
            else none
          | [] => none
      else none
    | [] => none

/-- `%Y sep %m`, whole string; day defaults to 1. -/
def runYM (sep : Char) (l : List Char) : Option DT :=
  match readDigits 4 0 l with
  | none => none
  | some (y, r1) =>
    match r1 with
    | c :: r2 =>
      if c = sep then
        (pMonth r2).findSome? fun mr =>
          if mr.2 = [] then mkDate y mr.1 1 else none
      else none
    | [] => none

/-- `%d sep %m sep %Y`, whole string. -/
def runDMY (sep : Char) (l : List Char) : Option DT :=
  (pDay l).findSome? fun dr =>
    match dr.2 with
    | c :: r2 =>
      if c = sep then
        (pMonth r2).findSome? fun mr =>
          match mr.2 with
          | c2 :: r3 =>
            if c2 = sep then
              match readDigits 4 0 r3 with
              | some (y, []) => mkDate y mr.1 dr.1
              | _ => none
            else none
          | [] => none
      else none
    | [] => none

/-- `%b %Y` / `%B %Y`: month name, whitespace run, four-digit year; day
defaults to 1. -/
def runBY (names : List (List Char × ℕ)) (l : List Char) : Option DT :=
  match pMonthName names l with
  | none => none
  | some (m, r1) =>
    let sp := r1.takeWhile isPySpace
    if sp = [] then none
    else
      match readDigits 4 0 (r1.drop sp.length) with
      | some (y, []) => mkDate y m 1
      | _ => none

inductive DateFmt where
  | ymd (sep : Char)
  | ym (sep : Char)
  | dmy (sep : Char)
  | bY
  | bigBY
deriving DecidableEq, Repr

/-- The `date_formats` list of `cv_structured_parser.py`. -/
def date_formats : List DateFmt :=
  [.ymd '-', .ymd '/', .ym '-', .ym '/', .dmy '-', .dmy '/', .bY, .bigBY]

def runFmt : DateFmt → List Char → Option DT
  | .ymd sep, l => runYMD sep l
  | .ym sep, l => runYM sep l
  | .dmy sep, l => runDMY sep l
  | .bY, l => runBY monthAbbrevNames l
  | .bigBY, l => runBY monthFullNames l

/-- `parse_date` of `cv_structured_parser.py`: strip, recognise
`present`/`now` (case-insensitive) as the current moment, otherwise try
each format in order and return the first success; error when all fail. -/
def parse_date (now : DT) (dateStr : String) : Except String DT :=
  let s := pyStrip dateStr.data
  if lcL s = "present".data ∨ lcL s = "now".data then .ok now
  else
    match date_formats.findSome? (fun f => runFmt f s) with
    | some d => .ok d
    | none => .error "Unknown date format"

/-! ## Experience extraction (`extract_experience`)

The `date_pattern` regex is embedded as a hand-compiled backtracking
matcher.  Each piece returns its candidate (consumed, remaining) splits in
the regex engine's preference order (greedy quantifiers longest-first,
alternatives in written order); sequencing explores those candidates in
lexicographic order, which is exactly Python's backtracking order, and the
first complete match wins. -/

/-- Candidate splits of a greedy counted repetition `c{lo,hi}` of a
character class, longest first. -/
def repRange (p : Char → Bool) (lo hi : ℕ) (l : List Char) : List (List Char × List Char) :=
  let run := (l.takeWhile p).length
  let top := min run hi
  (List.range (top + 1 - lo)).map fun k =>
    let n := top - k
    (l.take n, l.drop n)

/-- Candidate splits of a greedy unbounded repetition `c{lo,}`. -/
def repFrom (p : Char → Bool) (lo : ℕ) (l : List Char) : List (List Char × List Char) :=
  repRange p lo (l.takeWhile p).length l

/-- Candidate splits of `c?` (greedy: consume first). -/
def optChar (p : Char → Bool) (l : List Char) : List (List Char × List Char) :=
  match l with
  | c :: t => if p c then [([c], t), ([], l)] else [([], l)]
  | [] => [([], l)]

/-- A single mandatory class character. -/
def oneChar (p : Char → Bool) (l : List Char) : List (List Char × List Char) :=
  match l with
  | c :: t => if p c then [([c], t)] else []
  | [] => []

/-- A literal, matched case-insensitively (the pattern is compiled with
`re.IGNORECASE`). -/
def litCI (w : List Char) (l : List Char) : List (List Char × List Char) :=
  if lcL w = lcL (l.take w.length) ∧ w.length ≤ l.length then [(l.take w.length, l.drop w.length)]
  else []

/-- Sequencing of two pieces, preserving backtracking order. -/
def pseq (p q : List Char → List (List Char × List Char)) :
    List Char → List (List Char × List Char) := fun l =>
  (p l).flatMap fun cr => (q cr.2).map fun cr2 => (cr.1 ++ cr2.1, cr2.2)

/-- Ordered alternation. -/
def palt (ps : List (List Char → List (List Char × List Char))) :
    List Char → List (List Char × List Char) := fun l =>
  ps.flatMap (fun p => p l)

def isSlashDash (c : Char) : Bool := c == '/' || c == '-'

/-- One-or-two digits, slash-or-dash, one-or-two digits, slash-or-dash,
two-to-four digits (the numeric date alternative). -/
def rxNumDate : List Char → List (List Char × List Char) :=
  pseq (repRange Char.isDigit 1 2)
    (pseq (oneChar isSlashDash)
      (pseq (repRange Char.isDigit 1 2)
        (pseq (oneChar isSlashDash) (repRange Char.isDigit 2 4))))

/-- `[A-Za-z]{3,}\.? ?\d{4}` (month-name-plus-year shape). -/
def rxWordDate : List Char → List (List Char × List Char) :=
  pseq (repFrom Char.isAlpha 3)
    (pseq (optChar (· == '.')) (pseq (optChar (· == ' ')) (repRange Char.isDigit 4 4)))

/-- Four digits, slash-or-dash, two digits (the year-month alternative). -/
def rxYm : List Char → List (List Char × List Char) :=
  pseq (repRange Char.isDigit 4 4) (pseq (oneChar isSlashDash) (repRange Char.isDigit 2 2))

/-- The `start` group alternation. -/
def rxStart : List Char → List (List Char × List Char) :=
  palt [rxNumDate, rxWordDate, rxYm]

/-- `\s*(?:-|–|—|to)\s*` between the two dates. -/
def rxSep : List Char → List (List Char × List Char) :=
  pseq (repRange isPySpace 0 999999999)
    (pseq (palt [litCI "-".data, litCI "–".data, litCI "—".data, litCI "to".data])
      (repRange isPySpace 0 999999999))

/-- The `end` group alternation (also admits `Present`/`Now`). -/
def rxEnd : List Char → List (List Char × List Char) :=
  palt [rxNumDate, litCI "Present".data, litCI "Now".data, rxWordDate, rxYm]

/-- One anchored match attempt of the whole `date_pattern` at the head of
`l`: the first complete candidate in backtracking order, as
(start group, end group, total consumed length). -/
def attemptAt (l : List Char) : Option (List Char × List Char × ℕ) :=
  (rxStart l).findSome? fun s =>
    (rxSep s.2).findSome? fun m =>
      (rxEnd m.2).findSome? fun e =>
        some (s.1, e.1, l.length - e.2.length)

/-- A regex match: span within the line and the two captured groups. -/
structure RMatch where
  mstart : ℕ
  mend : ℕ
  sg : List Char
  eg : List Char
deriving DecidableEq, Repr

/-- `finditer`: scan left to right, take the leftmost match, continue after
its end (matches never overlap). -/
def scanAux : ℕ → List Char → ℕ → List RMatch
  | 0, _, _ => []
  | _ + 1, [], _ => []
  | fuel + 1, l@(_ :: t), pos =>
      match attemptAt l with
      | some (sg, eg, len) =>
          let step := max len 1
          ⟨pos, pos + len, sg, eg⟩ :: scanAux fuel (l.drop step) (pos + step)
      | none => scanAux fuel t (pos + 1)

def findMatches (seg : List Char) : List RMatch := scanAux seg.length seg 0

/-! ### The label pipeline (lines 70-77 of `cv_structured_parser.py`) -/

/-- The noise keywords of the `re.split` on line 71 (case-sensitive). -/
def noiseKeys : List String := ["During", "Business", "Website", "Key", "As"]

/-- `re.split(r'During|Business|Website|Key|As', s)[0]`: the prefix before
the earliest occurrence of any noise keyword (whole string if none). -/
def splitNoise (l : List Char) : List Char :=
  l.take ((noiseKeys.filterMap fun k => findSub? k.data l).foldr min l.length)

def isLowerAZ (c : Char) : Bool := 'a' ≤ c && c ≤ 'z'

/-- After one `[a-z]+` word: match `(?:\s+[a-z]+)*,\s*` with the greedy
preference (extend the word list while possible, otherwise require the
comma), returning the remainder after the whole match. -/
def lcCommaTail : ℕ → List Char → Option (List Char)
  | 0, _ => none
  | fuel + 1, rest =>
      let sp := (rest.takeWhile isPySpace).length
      let afterSp := rest.drop sp
      let w := (afterSp.takeWhile isLowerAZ).length
      (if 1 ≤ sp ∧ 1 ≤ w then lcCommaTail fuel (afterSp.drop w) else none).orElse fun _ =>
        match rest with
        | ',' :: t => some (t.dropWhile isPySpace)
        | _ => none

/-- `re.sub(r'^[a-z]+(?:\s+[a-z]+)*,\s*', '', s)`: strip one leading
lowercase comma-clause, if the anchored pattern matches. -/
def stripLcComma (l : List Char) : List Char :=
  let w := (l.takeWhile isLowerAZ).length
  if 1 ≤ w then
    match lcCommaTail (l.length + 1) (l.drop w) with
    | some rest => rest
    | none => l
  else l

/-- `re.match(r'(?P<role>.+?)\s+at\s+(?P<company>.+)', s, re.IGNORECASE)`:
the lazy role takes the shortest prefix that leaves `\s+at\s+` followed by
a nonempty company; the separator swallows maximal whitespace runs, except
that the trailing run gives back one character when the company would
otherwise be empty. -/
def roleAtAux : List Char → List Char → Option (List Char × List Char)
  | _, [] => none
  | pre, c :: t =>
      let next := roleAtAux (pre ++ [c]) t
      if isPySpace c then
        let sp1 := ((c :: t).takeWhile isPySpace).length
        let afterSep := (c :: t).drop sp1
        match afterSep with
        | a :: b :: rest2 =>
            if a.toLower = 'a' ∧ b.toLower = 't' then
              let sp2 := (rest2.takeWhile isPySpace).length
              if 1 ≤ sp2 then
                let comp := rest2.drop sp2
                if comp ≠ [] then some (pre, comp)
                else if 2 ≤ sp2 then some (pre, rest2.drop (sp2 - 1))
                else next
              else next
            else next
        | _ => next
      else next

def roleAt (l : List Char) : Option (List Char × List Char) :=
  match l with
  | [] => none
  | c :: t => roleAtAux [c] t

/-- One experience entry (`role`, `company`, dates, fractional-year
duration). -/
structure Entry where
  role : String
  company : String
  start_date : DT
  end_date : DT
  duration : ℚ
deriving DecidableEq, Repr

/-- Build the entry for one regex match, or skip it (`None`) when either
date half fails to parse — the `try/except ValueError: continue` of the
source. -/
def mkEntry (now : DT) (seg : List Char) (m : RMatch) : Option Entry :=
  match parse_date now (String.mk m.sg), parse_date now (String.mk m.eg) with
  | .ok sd, .ok ed =>
      let afterTxt := pyStrip (seg.drop m.mend)
      let label_part := if afterTxt ≠ [] then afterTxt else pyStrip (seg.take m.mstart)
      let label1 := pyStripChars " -–—:".data (splitNoise label_part)
      let label_clean := stripLcComma label1
      let rc :=
        match roleAt label_clean with
        | some (r, co) => (pyStrip r, pyStrip co)
        | none => (label_clean, [])
      some ⟨String.mk rc.1, String.mk rc.2, sd, ed,
            (⌊(tsecs ed - tsecs sd) / 86400⌋ : ℚ) / 365⟩
  | _, _ => none

/-- Python `str.splitlines()` (ASCII line boundaries, `\r\n` counted
once). -/
def isLineBreak (c : Char) : Bool :=
  c == '\n' || c == '\r' || c == '\x0b' || c == '\x0c' ||
  c == '\x1c' || c == '\x1d' || c == '\x1e' || c == '\x85'

def pySplitlinesAux : List Char → List Char → List (List Char)
  | [], cur => if cur = [] then [] else [cur.reverse]
  | '\r' :: '\n' :: t, cur => cur.reverse :: pySplitlinesAux t []
  | c :: t, cur =>
      if isLineBreak c then cur.reverse :: pySplitlinesAux t []
      else pySplitlinesAux t (c :: cur)

/-- Entries contributed by one raw line: strip it, skip it when blank,
otherwise keep one entry per date-range match whose two halves both
parse. -/
def lineEntries (now : DT) (line : List Char) : List Entry :=
  let seg := pyStrip line
  if seg = [] then [] else (findMatches seg).filterMap (mkEntry now seg)

def extractEntries (now : DT) (l : List Char) : List Entry :=
  (pySplitlinesAux l []).flatMap (lineEntries now)

/-- `extract_experience` of `cv_structured_parser.py` (the ambient
`datetime.now()` is the `now` parameter). -/
def extract_experience (now : DT) (text : String) : List Entry :=
  if text = "" then [] else extractEntries now text.data

/-! ## Section segmentation (`extract_by_keywords`) -/

/-- The recognized section header keywords, in the order of the source's
`sections` list. -/
def sectionsHdr : List String := ["Education", "Experience", "Skills", "Projects"]

/-- The `for sec in sections` loop of `extract_by_keywords`: skip the
queried keyword itself, and `break` at the first *listed* section whose
name occurs (case-insensitively) in the remaining text, returning that
occurrence's offset; fall through to the text length when no listed
section occurs. -/
def boundaryLoop (rest : List Char) (kw : String) : List String → ℕ
  | [] => rest.length
  | sec :: ss =>
      if lcL sec.data = lcL kw.data then boundaryLoop rest kw ss
      else
        match findSub? (lcL sec.data) (lcL rest) with
        | some j => j
        | none => boundaryLoop rest kw ss

/-- `extract_by_keywords` of `cv_structured_parser.py`. -/
def extract_by_keywords (text keyword : String) : String :=
  match findSub? (lcL keyword.data) (lcL text.data) with
  | none => ""
  | some i =>
      let rest := text.data.drop (i + keyword.data.length)
      String.mk (pyStrip (rest.take (boundaryLoop rest keyword sectionsHdr)))

/-- The boundary rule as the claim words it: the *nearest* occurrence of
any other recognized section keyword, whichever keyword it is.  Stated
from the claim for comparison with the code's behavior. -/
def nearestBoundary (rest : List Char) (kw : String) : ℕ :=
  (sectionsHdr.filterMap fun sec =>
      if lcL sec.data = lcL kw.data then none
      else findSub? (lcL sec.data) (lcL rest)).foldr min rest.length

/-- The segmentation as the claim words it (nearest other-keyword
occurrence, text returned verbatim).  Stated from the claim for comparison
with the code's behavior. -/
def extract_by_keywords_nearest (text keyword : String) : String :=
  match findSub? (lcL keyword.data) (lcL text.data) with
  | none => ""
  | some i =>
      let rest := text.data.drop (i + keyword.data.length)
      String.mk (rest.take (nearestBoundary rest keyword))

/-- The boundary the code actually computes, phrased directly: the first
keyword in list order (other than the query) that occurs anywhere in the
remaining text decides the cut, at its first occurrence. -/
def listOrderBoundary (rest : List Char) (kw : String) : ℕ :=
  (sectionsHdr.findSome? fun sec =>
      if lcL sec.data = lcL kw.data then none
      else findSub? (lcL sec.data) (lcL rest)).getD rest.length

/-! ## Semantic scorer (`semantic_matcher.py`)

The sentence-transformer embedding backend is an external capability; the
scorer below is parametrised by the per-section cosine-similarity
assignment (`simf`) it would compute from the embeddings, exactly as the
design's interface boundary prescribes. -/

namespace SemanticScorer

/-- The scored sections, in evaluation order (`SECTIONS`). -/
def SECTIONS : List String := ["skills", "experience", "education"]

/-- The configured section weights dictionary. -/
def weights : List (String × ℚ) :=
  [("skills", 2/5), ("experience", 3/10), ("education", 3/20), ("others", 3/20)]

/-- Python `dict.get(key, 0)` on an association list. -/
def weightsGet (w : List (String × ℚ)) (k : String) : ℚ :=
  ((w.find? fun p => p.1 == k).map Prod.snd).getD 0

/-- `np.isclose(a, b)` with the default tolerances
`atol = 1e-8`, `rtol = 1e-5`. -/
def np_isclose (a b : ℚ) : Bool :=
  |a - b| ≤ 1 / 100000000 + |b| / 100000

/-- The constructor-time weight validation of `SemanticScorer.__init__`,
applied to a weights configuration: succeed when the values sum to 1.0
within `np.isclose` tolerance, raise otherwise. -/
def initScorer (w : List (String × ℚ)) : Except String Unit :=
  if np_isclose ((w.map Prod.snd).sum) 1 then .ok ()
  else .error "The weights must sum to 1.0"

/-- Python banker's rounding to an integer (`round` on an exact value). -/
def roundHalfEven (q : ℚ) : ℤ :=
  if q - ⌊q⌋ < 1/2 then ⌊q⌋
  else if (1/2 : ℚ) < q - ⌊q⌋ then ⌊q⌋ + 1
  else if ⌊q⌋ % 2 = 0 then ⌊q⌋ else ⌊q⌋ + 1

/-- Python `round(x, 2)`. -/
def pyRound2 (q : ℚ) : ℚ := (roundHalfEven (q * 100) : ℚ) / 100

structure ScoreReport where
  skills_similarity : ℚ
  experience_similarity : ℚ
  education_similarity : ℚ
  best_match_score : ℚ
  best_match_section : String
  total_score : ℚ
deriving DecidableEq, Repr

/-- The per-section loop of `score_cv`: accumulate
`sim * 100 * weights.get(sec, 0)` into the total and track the strictly
largest similarity seen so far (initial trackers `-1.0` and the empty
section name). -/
def scoreLoop (simf : String → ℚ) : List String → ℚ × ℚ × String → ℚ × ℚ × String
  | [], acc => acc
  | sec :: rest, (total, best, bestSec) =>
      let sim := simf sec
      let total2 := total + sim * 100 * weightsGet weights sec
      if best < sim then scoreLoop simf rest (total2, sim, sec)
      else scoreLoop simf rest (total2, best, bestSec)

/-- `score_cv` of `semantic_matcher.py`, parametrised by the per-section
similarity assignment computed from the external embeddings. -/
def score_cv (simf : String → ℚ) : ScoreReport :=
  let r := scoreLoop simf SECTIONS (0, -1, "")
  ⟨simf "skills", simf "experience", simf "education",
   pyRound2 (r.2.1 * 100), pyCapitalize r.2.2, pyRound2 r.1⟩

/-- A concrete similarity assignment for the three scored sections. -/
def simfOf (s1 s2 s3 : ℚ) : String → ℚ := fun sec =>
  if sec = "skills" then s1
  else if sec = "experience" then s2
  else if sec = "education" then s3
  else 0

/-- A structured record restricted to the three scored sections (the only
fields `score_cv` and `find_missing_keywords` read). -/
structure Rec3 where
  skills : String
  experience : String
  education : String
deriving DecidableEq, Repr

/-- Python `record.get(sec, "")`. -/
def recGet (r : Rec3) (sec : String) : String :=
  if sec = "skills" then r.skills
  else if sec = "experience" then r.experience
  else if sec = "education" then r.education
  else ""

/-- `text.lower().replace(",", " ").split()` as a token set. -/
def tokensOf (s : String) : Finset String :=
  ((splitWs ((lcL s.data).map fun c => if c = ',' then ' ' else c)).map String.mk).toFinset

/-- `find_missing_keywords` of `semantic_matcher.py`: union over the three
sections of the JD-minus-CV token-set difference, returned sorted. -/
def find_missing_keywords (cv jd : Rec3) : List String :=
  (SECTIONS.foldl
      (fun acc sec => acc ∪ (tokensOf (recGet jd sec) \ tokensOf (recGet cv sec)))
      ∅).sort (· ≤ ·)

end SemanticScorer

/-- A fixed call time (`datetime.now()`) for concrete evaluations. -/
def now0 : DT := ⟨2026, 10, 12, 0⟩

/-! ## Helper lemmas -/

open SemanticScorer

theorem simfOf_sk (s1 s2 s3 : ℚ) : simfOf s1 s2 s3 "skills" = s1 := rfl

theorem simfOf_ex (s1 s2 s3 : ℚ) : simfOf s1 s2 s3 "experience" = s2 := rfl

theorem simfOf_ed (s1 s2 s3 : ℚ) : simfOf s1 s2 s3 "education" = s3 := rfl

theorem wg_sk : weightsGet weights "skills" = 2/5 := rfl

theorem wg_ex : weightsGet weights "experience" = 3/10 := rfl

theorem wg_ed : weightsGet weights "education" = 3/20 := rfl

theorem np_isclose_true {a b : ℚ} (h : |a - b| ≤ 1/100000000 + |b|/100000) :
    np_isclose a b = true := decide_eq_true h

theorem roundHalfEven_le {q : ℚ} {n : ℤ} (h : q ≤ (n : ℚ)) : roundHalfEven q ≤ n := by
  have hfn : ⌊q⌋ ≤ n := by
    have h2 := Int.floor_mono h
    simpa using h2
  unfold roundHalfEven
  split_ifs with h1 h2 h3
  · exact hfn
  · have h4 : (⌊q⌋ : ℚ) < (n : ℚ) := by
      have := Int.floor_le q
      linarith
    have : ⌊q⌋ < n := by exact_mod_cast h4
    omega
  · exact hfn
  · have h1a := not_lt.mp h1
    have h4 : (⌊q⌋ : ℚ) < (n : ℚ) := by
      have := Int.floor_le q
      linarith
    have : ⌊q⌋ < n := by exact_mod_cast h4
    omega

theorem le_roundHalfEven {q : ℚ} {n : ℤ} (h : (n : ℚ) ≤ q) : n ≤ roundHalfEven q := by
  have hfn : n ≤ ⌊q⌋ := Int.le_floor.mpr h
  unfold roundHalfEven
  split_ifs <;> omega

theorem pyRound2_le {q : ℚ} {n : ℤ} (h : q ≤ (n : ℚ)) : pyRound2 q ≤ (n : ℚ) := by
  unfold pyRound2
  have h1 : q * 100 ≤ ((100 * n : ℤ) : ℚ) := by push_cast; linarith
  have h2 := roundHalfEven_le h1
  have h3 : ((roundHalfEven (q * 100) : ℤ) : ℚ) ≤ ((100 * n : ℤ) : ℚ) := by exact_mod_cast h2
  push_cast at h3
  linarith

theorem le_pyRound2 {q : ℚ} {n : ℤ} (h : (n : ℚ) ≤ q) : (n : ℚ) ≤ pyRound2 q := by
  unfold pyRound2
  have h1 : ((100 * n : ℤ) : ℚ) ≤ q * 100 := by push_cast; linarith
  have h2 := le_roundHalfEven h1
  have h3 : ((100 * n : ℤ) : ℚ) ≤ ((roundHalfEven (q * 100) : ℤ) : ℚ) := by exact_mod_cast h2
  push_cast at h3
  linarith

theorem boundaryLoop_eq (rest : List Char) (kw : String) :
    ∀ l : List String, boundaryLoop rest kw l =
      (l.findSome? fun sec =>
        if lcL sec.data = lcL kw.data then none
        else findSub? (lcL sec.data) (lcL rest)).getD rest.length
  | [] => by simp [boundaryLoop]
  | sec :: ss => by
      by_cases h : lcL sec.data = lcL kw.data
      · simp only [boundaryLoop, if_pos h, List.findSome?_cons]
        exact boundaryLoop_eq rest kw ss
      · simp only [boundaryLoop, if_neg h, List.findSome?_cons]
        cases hf : findSub? (lcL sec.data) (lcL rest) with
        | none => simp only [hf]; exact boundaryLoop_eq rest kw ss
        | some j => simp [hf]

theorem pySplitlinesAux_cons_ne_cr (c : Char) (hc : ¬ c = '\r') (t cur : List Char) :
    pySplitlinesAux (c :: t) cur =
      if isLineBreak c then cur.reverse :: pySplitlinesAux t [] else pySplitlinesAux t (c :: cur) := by
  rw [pySplitlinesAux.eq_def]
  split
  · rename_i heq
    exact List.noConfusion heq
  · rename_i heq
    injection heq with h1 h2
    exact absurd h1 hc
  · rename_i heq
    injection heq with h1 h2
    subst h1
    subst h2
    rfl

theorem splitlines_break_flatMap (g : List Char → List Entry) (hg : g [] = []) :
    ∀ (a : List Char), '\r' ∉ a → ∀ (b cur : List Char),
      ((pySplitlinesAux (a ++ '\n' :: b) cur).flatMap g)
        = ((pySplitlinesAux a cur).flatMap g) ++ ((pySplitlinesAux b []).flatMap g)
  | [], _, b, cur => by
      by_cases hc : cur = []
      · subst hc
        simp [pySplitlinesAux, hg, isLineBreak]
      · simp [pySplitlinesAux, hc, isLineBreak]
  | c :: t, h, b, cur => by
      have hc : ¬ c = '\r' := fun hh => h (hh ▸ List.mem_cons_self c t)
      have ht : '\r' ∉ t := fun hh => h (List.mem_cons_of_mem c hh)
      by_cases hb : isLineBreak c = true
      · rw [List.cons_append, pySplitlinesAux_cons_ne_cr c hc, if_pos hb,
          pySplitlinesAux_cons_ne_cr c hc t cur, if_pos hb, List.flatMap_cons,
          List.flatMap_cons, splitlines_break_flatMap g hg t ht b []]
        simp
      · rw [List.cons_append, pySplitlinesAux_cons_ne_cr c hc, if_neg hb,
          pySplitlinesAux_cons_ne_cr c hc t cur, if_neg hb]
        exact splitlines_break_flatMap g hg t ht b (c :: cur)

theorem mkEntry_duration {now : DT} {seg : List Char} {m : RMatch} {e : Entry}
    (h : mkEntry now seg m = some e) :
    e.duration = (⌊(tsecs e.end_date - tsecs e.start_date) / 86400⌋ : ℚ) / 365 := by
  unfold mkEntry at h
  cases hs : parse_date now (String.mk m.sg) with
  | error msg => rw [hs] at h; exact Option.noConfusion h
  | ok sd =>
    cases he : parse_date now (String.mk m.eg) with
    | error msg => rw [hs, he] at h; exact Option.noConfusion h
    | ok ed =>
      rw [hs, he] at h
      simp only [Option.some.injEq] at h
      subst h
      rfl

/-! ## Claim theorems -/

/-- Claim C1, counterexample: on `"Skills a Projects b Education c"` the
code cuts the Skills section at `Education` (the first keyword in the
source's list order that occurs anywhere after the match), not at the
nearest other-keyword occurrence `Projects` as the claim states, so the
two rules disagree. -/
theorem C1_nearest_rule_counterexample :
    extract_by_keywords "Skills a Projects b Education c" "Skills" = "a Projects b" ∧
    extract_by_keywords_nearest "Skills a Projects b Education c" "Skills" = " a " ∧
    extract_by_keywords "Skills a Projects b Education c" "Skills" ≠
      extract_by_keywords_nearest "Skills a Projects b Education c" "Skills" := by
  refine ⟨by decide, by decide, by decide⟩

/-- Claim C1, amended: `extract_by_keywords` returns the empty string when
the keyword has no case-insensitive occurrence; otherwise it returns the
text after the first occurrence, cut at the first occurrence of the first
*listed* other section keyword (list order Education, Experience, Skills,
Projects) that occurs anywhere in the remainder — not the nearest
occurrence of any other keyword — and stripped of surrounding
whitespace. -/
theorem C1_section_boundary (text kw : String) :
    (findSub? (lcL kw.data) (lcL text.data) = none → extract_by_keywords text kw = "") ∧
    (∀ i, findSub? (lcL kw.data) (lcL text.data) = some i →
      extract_by_keywords text kw =
        String.mk (pyStrip ((text.data.drop (i + kw.data.length)).take
          (listOrderBoundary (text.data.drop (i + kw.data.length)) kw)))) := by
  constructor
  · intro h
    simp [extract_by_keywords, h]
  · intro i h
    simp only [extract_by_keywords, h, listOrderBoundary]
    rw [boundaryLoop_eq]

/-- Witness for C1: a concrete instance with the keyword present. -/
theorem C1_section_boundary_witness :
    findSub? (lcL "Skills".data) (lcL "My Skills: python. Education x".data) = some 3 ∧
    extract_by_keywords "My Skills: python. Education x" "Skills" =
      String.mk (pyStrip (("My Skills: python. Education x".data.drop (3 + "Skills".data.length)).take
        (listOrderBoundary ("My Skills: python. Education x".data.drop (3 + "Skills".data.length))
          "Skills"))) :=
  ⟨by decide, (C1_section_boundary "My Skills: python. Education x" "Skills").2 3 (by decide)⟩

/-- Claim C2, counterexample: the constructor validation accepts the
weights configuration with skills 0.5 and experience 0.5, because its
values sum to 1.0 and `np.isclose` therefore holds — the claim says this
configuration fails with a ConfigurationError. -/
theorem C2_half_half_accepted_counterexample :
    initScorer [("skills", 1/2), ("experience", 1/2)] = .ok () := by
  have h : np_isclose (([(("skills" : String), (1/2 : ℚ)),
      ("experience", 1/2)].map Prod.snd).sum) 1 = true := by
    apply np_isclose_true
    simp
    norm_num
  unfold initScorer
  rw [h]
  rfl

/-- Claim C2, amended: construction validates that the configured weight
values sum to 1.0 within `np.isclose` tolerance and fails otherwise; the
default configuration (0.4, 0.3, 0.15, 0.15) succeeds, the configuration
with skills 0.5 and experience 0.5 also succeeds since its values sum to
1.0 exactly, and a configuration whose values sum away from 1.0 (say
skills 0.5, experience 0.6) fails. -/
theorem C2_weight_validation :
    initScorer weights = .ok () ∧
    initScorer [("skills", 1/2), ("experience", 1/2)] = .ok () ∧
    initScorer [("skills", 1/2), ("experience", 3/5)] =
      .error "The weights must sum to 1.0" ∧
    (∀ w : List (String × ℚ),
      (∃ e, initScorer w = .error e) ↔ np_isclose ((w.map Prod.snd).sum) 1 = false) := by
  refine ⟨?_, ?_, ?_, ?_⟩
  · have h : np_isclose ((weights.map Prod.snd).sum) 1 = true := by
      apply np_isclose_true
      norm_num [weights]
    unfold initScorer
    rw [h]
    rfl
  · have h : np_isclose (([(("skills" : String), (1/2 : ℚ)),
        ("experience", 1/2)].map Prod.snd).sum) 1 = true := by
      apply np_isclose_true
      simp
      norm_num
    unfold initScorer
    rw [h]
    rfl
  · have h : np_isclose (([(("skills" : String), (1/2 : ℚ)),
        ("experience", 3/5)].map Prod.snd).sum) 1 = false := by
      apply decide_eq_false
      simp
      norm_num
      have habs : |(1 : ℚ)/10| = 1/10 := abs_of_nonneg (by norm_num)
      rw [habs]
      norm_num
    unfold initScorer
    rw [h]
    rfl
  · intro w
    unfold initScorer
    cases h : np_isclose ((w.map Prod.snd).sum) 1 <;> simp [h]

/-- Witness for C2: the universally quantified validation clause at the
default weights. -/
theorem C2_weight_validation_witness :
    (∃ e, initScorer weights = .error e) ↔
      np_isclose ((weights.map Prod.snd).sum) 1 = false :=
  C2_weight_validation.2.2.2 weights

/-- Claim C3: `total_score` is the rounded sum, over exactly the three
sections skills, experience and education, of
`similarity * 100 * weight(section)` — the `others` weight is never
consumed — and with all three similarities equal to 1 the total is
(0.4 + 0.3 + 0.15) * 100 = 85. -/
theorem C3_total_score_weighted_sum :
    (∀ s1 s2 s3 : ℚ,
      (score_cv (simfOf s1 s2 s3)).total_score
        = pyRound2 (s1 * 100 * (2/5) + s2 * 100 * (3/10) + s3 * 100 * (3/20))) ∧
    (score_cv (simfOf 1 1 1)).total_score = 85 := by
  constructor
  · intro s1 s2 s3
    simp only [score_cv, SECTIONS, scoreLoop, simfOf_sk, simfOf_ex, simfOf_ed,
      wg_sk, wg_ex, wg_ed]
    split_ifs <;> (congr 1; ring)
  · simp only [score_cv, SECTIONS, scoreLoop, simfOf_sk, simfOf_ex, simfOf_ed,
      wg_sk, wg_ex, wg_ed]
    norm_num [pyRound2, roundHalfEven]

/-- Witness for C3: the weighted-sum clause evaluated at similarities
(1, 1/2, 0). -/
theorem C3_total_score_weighted_sum_witness :
    (score_cv (simfOf 1 (1/2) 0)).total_score
      = pyRound2 (1 * 100 * (2/5) + (1/2) * 100 * (3/10) + 0 * 100 * (3/20)) :=
  C3_total_score_weighted_sum.1 1 (1/2) 0

/-- Claim C4, counterexample: with all three cosine similarities equal to
-1 (admissible for cosine similarity), `best_match_score` is -100 and
`total_score` is -85, so neither lies in the claimed interval 0 to 100. -/
theorem C4_range_counterexample :
    (score_cv (simfOf (-1) (-1) (-1))).best_match_score = -100 ∧
    (score_cv (simfOf (-1) (-1) (-1))).total_score = -85 ∧
    (score_cv (simfOf (-1) (-1) (-1))).best_match_score < 0 ∧
    (score_cv (simfOf (-1) (-1) (-1))).total_score < 0 := by
  simp only [score_cv, SECTIONS, scoreLoop, simfOf_sk, simfOf_ex, simfOf_ed,
    wg_sk, wg_ex, wg_ed]
  norm_num [pyRound2, roundHalfEven]

/-- Claim C4, amended: the per-section similarity fields are exactly the
cosine similarities (floats in -1..1 by the cosine contract), and
`best_match_score` and `total_score` lie in -100..100 (not 0..100: both
are negative when the similarities are negative). -/
theorem C4_score_ranges (s1 s2 s3 : ℚ)
    (h1 : -1 ≤ s1) (h2 : s1 ≤ 1) (h3 : -1 ≤ s2) (h4 : s2 ≤ 1)
    (h5 : -1 ≤ s3) (h6 : s3 ≤ 1) :
    ((score_cv (simfOf s1 s2 s3)).skills_similarity = s1 ∧
     (score_cv (simfOf s1 s2 s3)).experience_similarity = s2 ∧
     (score_cv (simfOf s1 s2 s3)).education_similarity = s3) ∧
    (-100 ≤ (score_cv (simfOf s1 s2 s3)).best_match_score ∧
      (score_cv (simfOf s1 s2 s3)).best_match_score ≤ 100) ∧
    (-100 ≤ (score_cv (simfOf s1 s2 s3)).total_score ∧
      (score_cv (simfOf s1 s2 s3)).total_score ≤ 100) := by
  refine ⟨⟨rfl, rfl, rfl⟩, ?_⟩
  simp only [score_cv, SECTIONS, scoreLoop, simfOf_sk, simfOf_ex, simfOf_ed,
    wg_sk, wg_ex, wg_ed]
  have hm100 : ((-100 : ℤ) : ℚ) = (-100 : ℚ) := by norm_num
  have hp100 : ((100 : ℤ) : ℚ) = (100 : ℚ) := by norm_num
  split_ifs
  all_goals refine ⟨⟨?_, ?_⟩, ?_, ?_⟩
  all_goals
    first
    | (rw [← hm100]; apply le_pyRound2; push_cast; linarith)
    | (rw [← hp100]; apply pyRound2_le; push_cast; linarith)

/-- Witness for C4: the amended ranges at similarities (1, 0, -1). -/
theorem C4_score_ranges_witness :
    ((score_cv (simfOf 1 0 (-1))).skills_similarity = 1 ∧
     (score_cv (simfOf 1 0 (-1))).experience_similarity = 0 ∧
     (score_cv (simfOf 1 0 (-1))).education_similarity = -1) ∧
    (-100 ≤ (score_cv (simfOf 1 0 (-1))).best_match_score ∧
      (score_cv (simfOf 1 0 (-1))).best_match_score ≤ 100) ∧
    (-100 ≤ (score_cv (simfOf 1 0 (-1))).total_score ∧
      (score_cv (simfOf 1 0 (-1))).total_score ≤ 100) :=
  C4_score_ranges 1 0 (-1) (by norm_num) (by norm_num) (by norm_num) (by norm_num)
    (by norm_num) (by norm_num)

/-- Claim C5, counterexample: when all three similarities equal -1 they
tie for the maximum, but no strict-greater update ever fires against the
-1 sentinel, so `best_match_section` is the empty string rather than the
earliest section skills. -/
theorem C5_tiebreak_counterexample :
    (score_cv (simfOf (-1) (-1) (-1))).skills_similarity
        = (score_cv (simfOf (-1) (-1) (-1))).experience_similarity ∧
    (score_cv (simfOf (-1) (-1) (-1))).experience_similarity
        = (score_cv (simfOf (-1) (-1) (-1))).education_similarity ∧
    (score_cv (simfOf (-1) (-1) (-1))).best_match_section = "" ∧
    (score_cv (simfOf (-1) (-1) (-1))).best_match_section ≠ "Skills" ∧
    (score_cv (simfOf (-1) (-1) (-1))).best_match_section ≠ "skills" := by
  have hc : (score_cv (simfOf (-1) (-1) (-1))).best_match_section = "" := by
    simp only [score_cv, SECTIONS, scoreLoop, simfOf_sk, simfOf_ex, simfOf_ed,
      wg_sk, wg_ex, wg_ed]
    norm_num [pyCapitalize]
  refine ⟨rfl, rfl, hc, ?_, ?_⟩ <;> rw [hc] <;> decide

/-- Claim C5, amended: provided the winning similarity exceeds the -1
sentinel, `score_cv` selects by strict greater-than in evaluation order
skills, experience, education — so the earliest section wins ties — and
`best_match_score` is that section's similarity times 100, rounded to two
places (the capitalized section name is reported). -/
theorem C5_best_match_tiebreak (s1 s2 s3 : ℚ) :
    (-1 < s1 → s2 ≤ s1 → s3 ≤ s1 →
      (score_cv (simfOf s1 s2 s3)).best_match_section = "Skills" ∧
      (score_cv (simfOf s1 s2 s3)).best_match_score = pyRound2 (s1 * 100)) ∧
    (-1 < s2 → s1 < s2 → s3 ≤ s2 →
      (score_cv (simfOf s1 s2 s3)).best_match_section = "Experience" ∧
      (score_cv (simfOf s1 s2 s3)).best_match_score = pyRound2 (s2 * 100)) ∧
    (-1 < s3 → s1 < s3 → s2 < s3 →
      (score_cv (simfOf s1 s2 s3)).best_match_section = "Education" ∧
      (score_cv (simfOf s1 s2 s3)).best_match_score = pyRound2 (s3 * 100)) := by
  refine ⟨fun h0 ha hb => ?_, fun h0 ha hb => ?_, fun h0 ha hb => ?_⟩
  all_goals
    simp only [score_cv, SECTIONS, scoreLoop, simfOf_sk, simfOf_ex, simfOf_ed,
      wg_sk, wg_ex, wg_ed]
  all_goals
    split_ifs <;> first
      | (exfalso; linarith)
      | exact ⟨rfl, rfl⟩

/-- Witness for C5: a tie between skills and experience at similarity 1/2
resolves to Skills. -/
theorem C5_best_match_tiebreak_witness :
    (score_cv (simfOf (1/2) (1/2) 0)).best_match_section = "Skills" ∧
    (score_cv (simfOf (1/2) (1/2) 0)).best_match_score = pyRound2 ((1/2) * 100) :=
  (C5_best_match_tiebreak (1/2) (1/2) 0).1 (by norm_num) (by norm_num) (by norm_num)

/-- Claim C6: `parse_date` sends `present`/`now` (case-insensitive, after
stripping) to the ambient current moment; any other input is tried
against the fixed ordered format list and the first success is returned
(so `2020-05` and `May 2020` both yield May 1 2020, `2020-05-06` and
`06/05/2020` both yield May 6 2020); it fails — with the
`Unknown date format` error — exactly when every format fails. -/
theorem C6_parse_date_formats :
    (∀ now : DT, parse_date now "Present" = .ok now ∧ parse_date now " noW " = .ok now) ∧
    (∀ now : DT, parse_date now "2020-05" = .ok ⟨2020, 5, 1, 0⟩ ∧
      parse_date now "May 2020" = .ok ⟨2020, 5, 1, 0⟩ ∧
      parse_date now "2020-05-06" = .ok ⟨2020, 5, 6, 0⟩ ∧
      parse_date now "06/05/2020" = .ok ⟨2020, 5, 6, 0⟩ ∧
      parse_date now "2020-02-30" = .error "Unknown date format") ∧
    (∀ (now : DT) (s : String),
      (∃ msg, parse_date now s = .error msg) ↔
        (¬(lcL (pyStrip s.data) = "present".data ∨ lcL (pyStrip s.data) = "now".data) ∧
         runYMD '-' (pyStrip s.data) = none ∧ runYMD '/' (pyStrip s.data) = none ∧
         runYM '-' (pyStrip s.data) = none ∧ runYM '/' (pyStrip s.data) = none ∧
         runDMY '-' (pyStrip s.data) = none ∧ runDMY '/' (pyStrip s.data) = none ∧
         runBY monthAbbrevNames (pyStrip s.data) = none ∧
         runBY monthFullNames (pyStrip s.data) = none)) := by
  refine ⟨fun now => ⟨rfl, rfl⟩, fun now => ⟨rfl, rfl, rfl, rfl, rfl⟩, fun now s => ?_⟩
  unfold parse_date
  by_cases h : lcL (pyStrip s.data) = "present".data ∨ lcL (pyStrip s.data) = "now".data
  · rw [if_pos h]
    constructor
    · rintro ⟨msg, hmsg⟩
      exact Except.noConfusion hmsg
    · rintro ⟨hn, -⟩
      exact absurd h hn
  · rw [if_neg h]
    cases hf : List.findSome? (fun f => runFmt f (pyStrip s.data)) date_formats with
    | some d =>
        simp only [hf]
        constructor
        · rintro ⟨msg, hmsg⟩
          exact Except.noConfusion hmsg
        · rintro ⟨-, h1, h2, h3, h4, h5, h6, h7, h8⟩
          have hnone : List.findSome? (fun f => runFmt f (pyStrip s.data)) date_formats = none := by
            rw [List.findSome?_eq_none_iff]
            intro f hfmem
            simp only [date_formats, List.mem_cons, List.not_mem_nil, or_false] at hfmem
            rcases hfmem with rfl | rfl | rfl | rfl | rfl | rfl | rfl | rfl
            · exact h1
            · exact h2
            · exact h3
            · exact h4
            · exact h5
            · exact h6
            · exact h7
            · exact h8
          rw [hnone] at hf
          exact Option.noConfusion hf
    | none =>
        simp only [hf]
        constructor
        · intro
          refine ⟨h, ?_⟩
          rw [List.findSome?_eq_none_iff] at hf
          exact ⟨hf (.ymd '-') (by simp [date_formats]), hf (.ymd '/') (by simp [date_formats]),
            hf (.ym '-') (by simp [date_formats]), hf (.ym '/') (by simp [date_formats]),
            hf (.dmy '-') (by simp [date_formats]), hf (.dmy '/') (by simp [date_formats]),
            hf .bY (by simp [date_formats]), hf .bigBY (by simp [date_formats])⟩
        · intro
          exact ⟨_, rfl⟩

/-- Witness for C6: the failure characterization at the unparseable input
`Sept. 2019`. -/
theorem C6_parse_date_formats_witness :
    (∃ msg, parse_date now0 "Sept. 2019" = .error msg) ↔
      (¬(lcL (pyStrip "Sept. 2019".data) = "present".data ∨
          lcL (pyStrip "Sept. 2019".data) = "now".data) ∧
       runYMD '-' (pyStrip "Sept. 2019".data) = none ∧
       runYMD '/' (pyStrip "Sept. 2019".data) = none ∧
       runYM '-' (pyStrip "Sept. 2019".data) = none ∧
       runYM '/' (pyStrip "Sept. 2019".data) = none ∧
       runDMY '-' (pyStrip "Sept. 2019".data) = none ∧
       runDMY '/' (pyStrip "Sept. 2019".data) = none ∧
       runBY monthAbbrevNames (pyStrip "Sept. 2019".data) = none ∧
       runBY monthFullNames (pyStrip "Sept. 2019".data) = none) :=
  C6_parse_date_formats.2.2 now0 "Sept. 2019"

/-- Claim C7: the extractor is per-match best-effort and total.  Lines
are processed independently (splitting two texts at a newline splits the
entry sequence), a line without matches contributes nothing, a date-range
match whose halves do not both parse (here `Sept. 2019`, which no format
accepts) is skipped while later lines still contribute, a line with two
ranges contributes two entries in line-scan order, and the spec's Acme
example yields the expected single entry ending at the current moment. -/
theorem C7_experience_best_effort :
    (∀ (now : DT) (a b : List Char), '\r' ∉ a →
      extractEntries now (a ++ '\n' :: b) = extractEntries now a ++ extractEntries now b) ∧
    extract_experience now0 "no dates in this line" = [] ∧
    extract_experience now0 "Sept. 2019 - Oct 2020 Dev at X\nJan 2020 - Mar 2020 Dev at X" =
      [⟨"Dev", "X", ⟨2020, 1, 1, 0⟩, ⟨2020, 3, 1, 0⟩,
        (⌊(tsecs ⟨2020, 3, 1, 0⟩ - tsecs ⟨2020, 1, 1, 0⟩) / 86400⌋ : ℚ) / 365⟩] ∧
    extract_experience now0 "Jan 2020 - Feb 2020 A at B May 2021 - Jun 2021 C at D" =
      [⟨"A", "B May 2021 - Jun 2021 C at D", ⟨2020, 1, 1, 0⟩, ⟨2020, 2, 1, 0⟩,
        (⌊(tsecs ⟨2020, 2, 1, 0⟩ - tsecs ⟨2020, 1, 1, 0⟩) / 86400⌋ : ℚ) / 365⟩,
       ⟨"C", "D", ⟨2021, 5, 1, 0⟩, ⟨2021, 6, 1, 0⟩,
        (⌊(tsecs ⟨2021, 6, 1, 0⟩ - tsecs ⟨2021, 5, 1, 0⟩) / 86400⌋ : ℚ) / 365⟩] ∧
    extract_experience now0 "Jan 2019 - Present Software Engineer at Acme Corp" =
      [⟨"Software Engineer", "Acme Corp", ⟨2019, 1, 1, 0⟩, now0,
        (⌊(tsecs now0 - tsecs ⟨2019, 1, 1, 0⟩) / 86400⌋ : ℚ) / 365⟩] := by
  refine ⟨fun now a b ha => ?_, rfl, rfl, rfl, rfl⟩
  unfold extractEntries
  exact splitlines_break_flatMap (lineEntries now) (by simp [lineEntries, pyStrip]) a ha b []

/-- Witness for C7: the line-independence clause at a concrete pair of
lines. -/
theorem C7_experience_best_effort_witness :
    extractEntries now0 ("abc".data ++ '\n' :: "Jan 2020 - Mar 2020 Dev at X".data) =
      extractEntries now0 "abc".data ++
        extractEntries now0 "Jan 2020 - Mar 2020 Dev at X".data :=
  C7_experience_best_effort.1 now0 "abc".data "Jan 2020 - Mar 2020 Dev at X".data (by decide)

/-- Claim C8: every produced entry's duration is the raw day difference
(end minus start, floored Python-timedelta days) divided by 365, computed
without swapping, and it is negative exactly when the parsed end timestamp
precedes the parsed start timestamp. -/
theorem C8_duration_raw_dates :
    ∀ (now : DT) (text : String), ∀ e ∈ extract_experience now text,
      e.duration = (⌊(tsecs e.end_date - tsecs e.start_date) / 86400⌋ : ℚ) / 365 ∧
      (e.duration < 0 ↔ tsecs e.end_date < tsecs e.start_date) := by
  intro now text e he
  have hdur : e.duration = (⌊(tsecs e.end_date - tsecs e.start_date) / 86400⌋ : ℚ) / 365 := by
    unfold extract_experience at he
    by_cases ht : text = ""
    · rw [if_pos ht] at he
      exact absurd he (List.not_mem_nil e)
    · rw [if_neg ht] at he
      unfold extractEntries at he
      rw [List.mem_flatMap] at he
      obtain ⟨line, -, hline⟩ := he
      unfold lineEntries at hline
      by_cases hseg : pyStrip line = []
      · rw [if_pos hseg] at hline
        exact absurd hline (List.not_mem_nil e)
      · rw [if_neg hseg] at hline
        rw [List.mem_filterMap] at hline
        obtain ⟨m, -, hm⟩ := hline
        exact mkEntry_duration hm
  refine ⟨hdur, ?_⟩
  rw [hdur]
  constructor
  · intro hlt
    by_contra hge
    push_neg at hge
    have h1 : (0 : ℚ) ≤ tsecs e.end_date - tsecs e.start_date := by linarith
    have h2 : (0 : ℚ) ≤ (tsecs e.end_date - tsecs e.start_date) / 86400 := by positivity
    have h3 : (0 : ℤ) ≤ ⌊(tsecs e.end_date - tsecs e.start_date) / 86400⌋ :=
      Int.floor_nonneg.mpr h2
    have h4 : (0 : ℚ) ≤ (⌊(tsecs e.end_date - tsecs e.start_date) / 86400⌋ : ℚ) := by
      exact_mod_cast h3
    have h5 : (0 : ℚ) ≤ (⌊(tsecs e.end_date - tsecs e.start_date) / 86400⌋ : ℚ) / 365 := by
      positivity
    linarith
  · intro hlt
    have h1 : tsecs e.end_date - tsecs e.start_date < 0 := by linarith
    have h2 : (tsecs e.end_date - tsecs e.start_date) / 86400 < 0 :=
      div_neg_of_neg_of_pos h1 (by norm_num)
    have h3 : ⌊(tsecs e.end_date - tsecs e.start_date) / 86400⌋ < 0 := by
      rw [Int.floor_lt]
      push_cast
      linarith
    have h4 : (⌊(tsecs e.end_date - tsecs e.start_date) / 86400⌋ : ℚ) < 0 := by
      exact_mod_cast h3
    exact div_neg_of_neg_of_pos h4 (by norm_num)

/-- Witness for C8: the duration facts for the concrete entry extracted
from `Jan 2020 - Mar 2020 Dev at X`. -/
theorem C8_duration_raw_dates_witness :
    (⟨"Dev", "X", ⟨2020, 1, 1, 0⟩, ⟨2020, 3, 1, 0⟩,
        (⌊(tsecs ⟨2020, 3, 1, 0⟩ - tsecs ⟨2020, 1, 1, 0⟩) / 86400⌋ : ℚ) / 365⟩ : Entry)
      ∈ extract_experience now0 "Jan 2020 - Mar 2020 Dev at X" ∧
    ((⟨"Dev", "X", ⟨2020, 1, 1, 0⟩, ⟨2020, 3, 1, 0⟩,
        (⌊(tsecs ⟨2020, 3, 1, 0⟩ - tsecs ⟨2020, 1, 1, 0⟩) / 86400⌋ : ℚ) / 365⟩ : Entry).duration =
      (⌊(tsecs (⟨2020, 3, 1, 0⟩ : DT) - tsecs (⟨2020, 1, 1, 0⟩ : DT)) / 86400⌋ : ℚ) / 365 ∧
     ((⟨"Dev", "X", ⟨2020, 1, 1, 0⟩, ⟨2020, 3, 1, 0⟩,
        (⌊(tsecs ⟨2020, 3, 1, 0⟩ - tsecs ⟨2020, 1, 1, 0⟩) / 86400⌋ : ℚ) / 365⟩ : Entry).duration < 0 ↔
      tsecs (⟨2020, 3, 1, 0⟩ : DT) < tsecs (⟨2020, 1, 1, 0⟩ : DT))) := by
  have hm : (⟨"Dev", "X", ⟨2020, 1, 1, 0⟩, ⟨2020, 3, 1, 0⟩,
      (⌊(tsecs ⟨2020, 3, 1, 0⟩ - tsecs ⟨2020, 1, 1, 0⟩) / 86400⌋ : ℚ) / 365⟩ : Entry)
      ∈ extract_experience now0 "Jan 2020 - Mar 2020 Dev at X" := by
    have h : extract_experience now0 "Jan 2020 - Mar 2020 Dev at X" =
        [⟨"Dev", "X", ⟨2020, 1, 1, 0⟩, ⟨2020, 3, 1, 0⟩,
          (⌊(tsecs ⟨2020, 3, 1, 0⟩ - tsecs ⟨2020, 1, 1, 0⟩) / 86400⌋ : ℚ) / 365⟩] := rfl
    rw [h]
    exact List.mem_singleton_self _
  exact ⟨hm, C8_duration_raw_dates now0 "Jan 2020 - Mar 2020 Dev at X" _ hm⟩

/-- Claim C9: `find_missing_keywords` returns the sorted, duplicate-free
sequence of tokens (lowercased, comma treated as whitespace) that occur in
a JD section but not in the corresponding CV section, unioned over skills,
experience and education; with CV skills `python sql` and JD skills
`python sql aws` the result is exactly `aws`. -/
theorem C9_missing_keywords :
    (∀ cv jd : Rec3,
      (find_missing_keywords cv jd).Sorted (· ≤ ·) ∧
      (find_missing_keywords cv jd).Nodup ∧
      (∀ w, w ∈ find_missing_keywords cv jd ↔
        ((w ∈ tokensOf jd.skills ∧ w ∉ tokensOf cv.skills) ∨
         (w ∈ tokensOf jd.experience ∧ w ∉ tokensOf cv.experience) ∨
         (w ∈ tokensOf jd.education ∧ w ∉ tokensOf cv.education)))) ∧
    find_missing_keywords ⟨"python sql", "", ""⟩ ⟨"python sql aws", "", ""⟩ = ["aws"] := by
  constructor
  · intro cv jd
    refine ⟨Finset.sort_sorted _ _, Finset.sort_nodup _ _, fun w => ?_⟩
    unfold find_missing_keywords
    rw [Finset.mem_sort]
    simp [SECTIONS, recGet, Finset.mem_union, Finset.mem_sdiff]
  · unfold find_missing_keywords
    have h : SECTIONS.foldl
        (fun acc sec => acc ∪ (tokensOf (recGet ⟨"python sql aws", "", ""⟩ sec)
          \ tokensOf (recGet ⟨"python sql", "", ""⟩ sec))) ∅ = ({"aws"} : Finset String) := by
      decide
    rw [h, Finset.sort_singleton]

/-- Witness for C9: the membership characterization at a concrete record
pair and token. -/
theorem C9_missing_keywords_witness :
    "aws" ∈ find_missing_keywords ⟨"python sql", "", ""⟩ ⟨"python sql aws", "", ""⟩ ↔
      (("aws" ∈ tokensOf "python sql aws" ∧ "aws" ∉ tokensOf "python sql") ∨
       ("aws" ∈ tokensOf "" ∧ "aws" ∉ tokensOf "") ∨
       ("aws" ∈ tokensOf "" ∧ "aws" ∉ tokensOf "")) :=
  (C9_missing_keywords.1 ⟨"python sql", "", ""⟩ ⟨"python sql aws", "", ""⟩).2.2 "aws"

/-- Claim C10: whenever some similarity exceeds the -1 sentinel (so a
winning section exists), the reported `best_match_section` is the winning
section name with its first letter capitalized — one of Skills,
Experience, Education — and never one of the lowercase section keys used
in the similarity-field names. -/
theorem C10_best_section_capitalized (s1 s2 s3 : ℚ)
    (h : -1 < s1 ∨ -1 < s2 ∨ -1 < s3) :
    (score_cv (simfOf s1 s2 s3)).best_match_section ∈
        (["Skills", "Experience", "Education"] : List String) ∧
    (score_cv (simfOf s1 s2 s3)).best_match_section ∉
        (["skills", "experience", "education"] : List String) := by
  simp only [score_cv, SECTIONS, scoreLoop, simfOf_sk, simfOf_ex, simfOf_ed,
    wg_sk, wg_ex, wg_ed]
  split_ifs <;> first
    | (constructor <;> (dsimp only; decide))
    | (exfalso; rcases h with h | h | h <;> linarith)

/-- Witness for C10: at similarities (1, 0, 0) the reported section is a
capitalized name. -/
theorem C10_best_section_capitalized_witness :
    (score_cv (simfOf 1 0 0)).best_match_section ∈
        (["Skills", "Experience", "Education"] : List String) ∧
    (score_cv (simfOf 1 0 0)).best_match_section ∉
        (["skills", "experience", "education"] : List String) :=
  C10_best_section_capitalized 1 0 0 (Or.inl (by norm_num))

end CvMatcher
